import Mathlib

/-!
Verification of the Global Food Sustainability & Nutrition dashboard core.

The development shallowly embeds the data-preparation pipeline (the
`load_data` functions) and the filter-and-aggregation layer of the
dashboard scripts.  Tables are lists of records; a missing CSV cell is
`none`; pandas `NaN` results are modelled as `none`; floating point
numbers are modelled as exact rationals.  Each definition mirrors one
expression of the source scripts, named after it where possible.
-/

namespace FoodDash

/-- Raw CSV record: every cell may be missing (`none`).  Column set as in
the source CSV (product_name, brands, countries, categories,
nutriscore_grade, ecoscore_grade, nova_group, labels, and the four
nutrient columns). -/
structure RawRow where
  product_name : Option String := none
  brands : Option String := none
  countries : Option String := none
  categories : Option String := none
  nutriscore_grade : Option String := none
  ecoscore_grade : Option String := none
  nova_group : Option String := none
  labels : Option String := none
  energy_kcal_100g : Option String := none
  fat_100g : Option String := none
  sugars_100g : Option String := none
  proteins_100g : Option String := none
deriving DecidableEq

/-- Python `str(x)` on a cell: a missing value (float NaN) stringifies to
the literal string "nan"; embeds `astype(str)`. -/
def pyStr (c : Option String) : String :=
  match c with
  | none => "nan"
  | some s => s

/-- Lowercase a string character by character (Python `str.lower()` on
the ASCII data of the CSV). -/
def lowerStr (s : String) : String :=
  String.mk (s.toList.map Char.toLower)

/-- Embeds `astype(str).str.lower()` applied to a grade cell. -/
def pyLower (c : Option String) : String :=
  lowerStr (pyStr c)

/-- Value of a list of decimal digit characters. -/
def digitsToNat (cs : List Char) : ℕ :=
  cs.foldl (fun n c => 10 * n + (c.toNat - 48)) 0

/-- True when the character list is a nonempty run of decimal digits. -/
def isDigits (cs : List Char) : Bool :=
  !cs.isEmpty && cs.all Char.isDigit

/-- Parse a decimal literal (optional minus sign, optional fractional
part) into an exact rational; `none` when the string is not numeric. -/
def parseDec (s : String) : Option ℚ :=
  let sgn : ℚ := if s.startsWith "-" then -1 else 1
  let body := if s.startsWith "-" then s.drop 1 else s
  match body.splitOn "." with
  | [i] => if isDigits i.toList then some (sgn * digitsToNat i.toList) else none
  | [i, f] =>
      if isDigits i.toList && isDigits f.toList then
        some (sgn * ((digitsToNat i.toList : ℚ) +
          (digitsToNat f.toList : ℚ) / 10 ^ f.length))
      else none
  | _ => none

/-- Embeds `pd.to_numeric(col, errors='coerce')` on one cell: a missing
cell stays missing, an unparsable cell becomes `none`, never an error. -/
def toNumeric (c : Option String) : Option ℚ :=
  c.bind parseDec

/-- Check that `pat` occurs at the head of `l`. -/
def listStartsWith : List Char → List Char → Bool
  | [], _ => true
  | _ :: _, [] => false
  | p :: ps, c :: cs => p == c && listStartsWith ps cs

/-- Check that `pat` occurs somewhere inside `l` (substring search). -/
def containsSeq (pat : List Char) : List Char → Bool
  | [] => pat.isEmpty
  | c :: cs => listStartsWith pat (c :: cs) || containsSeq pat cs

/-- Embeds `labels.astype(str).str.contains('organic', case=False)`:
case-insensitive substring test, `false` (not null) on a missing cell. -/
def isOrganicOf (c : Option String) : Bool :=
  containsSeq "organic".toList (lowerStr (pyStr c)).toList

/-- Characters of a string up to (excluding) the first comma; the whole
string when it has no comma.  This is `split(',')[0]`. -/
def takeUntilComma : List Char → List Char
  | [] => []
  | c :: cs => if c == ',' then [] else c :: takeUntilComma cs

/-- Drop leading whitespace characters. -/
def dropLeadingWS : List Char → List Char
  | [] => []
  | c :: cs => if c.isWhitespace then dropLeadingWS cs else c :: cs

/-- Python `str.strip()`: drop whitespace at both ends. -/
def trimChars (cs : List Char) : List Char :=
  (dropLeadingWS (dropLeadingWS cs).reverse).reverse

/-- Embeds `countries.str.split(',').str[0].str.strip()` (same for
categories): first comma-separated token, trimmed; `none` stays `none`. -/
def mainToken (c : Option String) : Option String :=
  c.map (fun s => String.mk (trimChars (takeUntilComma s.toList)))

/-- Fixed grade-to-score dictionary of the loader,
`nutri_map = {'a':5, 'b':4, 'c':3, 'd':2, 'e':1}`; lookup misses
(`.map` on an unknown key) give `none`. -/
def nutri_map (s : String) : Option ℚ :=
  if s = "a" then some 5
  else if s = "b" then some 4
  else if s = "c" then some 3
  else if s = "d" then some 2
  else if s = "e" then some 1
  else none

/-- Fixed grade-to-score dictionary
`eco_map = {'a':5, 'b':4, 'c':3, 'd':2, 'e':1}` of the loader. -/
def eco_map (s : String) : Option ℚ :=
  if s = "a" then some 5
  else if s = "b" then some 4
  else if s = "c" then some 3
  else if s = "d" then some 2
  else if s = "e" then some 1
  else none

/-- Normalized record produced by `load_data`: grade columns are strings
(stringified and lowercased, so never null), derived scores and numeric
columns are nullable, `is_organic` is a plain boolean. -/
structure NormRow where
  product_name : Option String := none
  brands : Option String := none
  nutriscore_grade : String := "nan"
  ecoscore_grade : String := "nan"
  nova_group : Option ℚ := none
  energy_kcal_100g : Option ℚ := none
  fat_100g : Option ℚ := none
  sugars_100g : Option ℚ := none
  proteins_100g : Option ℚ := none
  main_country : Option String := none
  main_category : Option String := none
  is_organic : Bool := false
  nutri_score : Option ℚ := none
  eco_score : Option ℚ := none
deriving DecidableEq

/-- Normalization of one record: the body of `load_data` applied to one
row (grade lowercasing, numeric coercion, derived features, score maps). -/
def load_row (r : RawRow) : NormRow where
  product_name := r.product_name
  brands := r.brands
  nutriscore_grade := pyLower r.nutriscore_grade
  ecoscore_grade := pyLower r.ecoscore_grade
  nova_group := toNumeric r.nova_group
  energy_kcal_100g := toNumeric r.energy_kcal_100g
  fat_100g := toNumeric r.fat_100g
  sugars_100g := toNumeric r.sugars_100g
  proteins_100g := toNumeric r.proteins_100g
  main_country := mainToken r.countries
  main_category := mainToken r.categories
  is_organic := isOrganicOf r.labels
  nutri_score := nutri_map (pyLower r.nutriscore_grade)
  eco_score := eco_map (pyLower r.ecoscore_grade)

/-- Embeds `load_data`: normalize every parsed row; purely a per-row map,
no row is ever dropped. -/
def load_data (t : List RawRow) : List NormRow :=
  t.map load_row

/-- Membership test of `main_country` in a selection, the mask
`df['main_country'].isin(sel)`: a null country is never a member. -/
def countryMem (sel : List String) (r : NormRow) : Bool :=
  match r.main_country with
  | some c => sel.contains c
  | none => false

/-- Country filter of the guarded variant
(`if country_filter: df = df[df['country_primary'].isin(country_filter)]`):
an empty selection leaves the table untouched. -/
def country_filter_guarded (sel : List String) (t : List NormRow) : List NormRow :=
  if sel.isEmpty then t else t.filter (countryMem sel)

/-- Country filter of the unconditional variants
(`filtered_df = df[df['main_country'].isin(countries)]`): the isin mask is
applied whatever the selection is. -/
def countries_filter (sel : List String) (t : List NormRow) : List NormRow :=
  t.filter (countryMem sel)

/-- The sidebar filter selections: selected countries, organic-only flag,
selected category (`none` encodes the "All" choice), selected nutri
grades, selected NOVA groups, and the inclusive sugar slider range. -/
structure FilterSet where
  countries : List String
  organic_only : Bool
  category : Option String
  nutri_grades : List String
  nova_groups : List ℚ
  sugar_lo : ℚ
  sugar_hi : ℚ

/-- Row predicate of `df['main_country'].isin(selected_countries)`. -/
def countryPred (fs : FilterSet) (r : NormRow) : Bool :=
  countryMem fs.countries r

/-- Row predicate of `if show_organic: filtered_df[filtered_df['is_organic']]`,
expressed as the row condition it imposes when active. -/
def organicPred (fs : FilterSet) (r : NormRow) : Bool :=
  !fs.organic_only || r.is_organic

/-- Row predicate of
`if selected_category != "All": filtered_df['main_category'] == selected_category`;
a null category never equals a selected value. -/
def categoryPred (fs : FilterSet) (r : NormRow) : Bool :=
  match fs.category with
  | none => true
  | some c => r.main_category == some c

/-- Row predicate of `df['nutriscore_grade'].isin(selected_nutri)`; the
grade column is a plain string after normalization. -/
def gradePred (sel : List String) (r : NormRow) : Bool :=
  sel.contains r.nutriscore_grade

/-- Row predicate of `df['nova_group'].isin(selected_nova)`: a null NOVA
group is never a member. -/
def novaPred (fs : FilterSet) (r : NormRow) : Bool :=
  match r.nova_group with
  | some v => fs.nova_groups.contains v
  | none => false

/-- Row predicate of the sugar slider,
`(sugars_100g >= lo) & (sugars_100g <= hi)`: null sugar fails both
comparisons and is excluded. -/
def sugarPred (fs : FilterSet) (r : NormRow) : Bool :=
  match r.sugars_100g with
  | some v => decide (fs.sugar_lo ≤ v) && decide (v ≤ fs.sugar_hi)
  | none => false

/-- The six filter predicates in the sequential order of the source
(country, organic, category, grade, NOVA, sugar). -/
def predList (fs : FilterSet) : List (NormRow → Bool) :=
  [countryPred fs, organicPred fs, categoryPred fs,
    gradePred fs.nutri_grades, novaPred fs, sugarPred fs]

/-- Conjunction of all filter predicates: the one-pass boolean mask of
the `filtered_df = df[mask1 & mask2 & ...]` variant. -/
def fsPred (fs : FilterSet) (r : NormRow) : Bool :=
  (predList fs).all (fun p => p r)

/-- Apply a list of row predicates one after the other, each to the
result of the previous one (the sequential `filtered_df = filtered_df[...]`
variant). -/
def seqFilter (ps : List (α → Bool)) (t : List α) : List α :=
  ps.foldl (fun acc p => acc.filter p) t

/-- Sequential filtering of the source, in source order. -/
def filtered_df (fs : FilterSet) (t : List NormRow) : List NormRow :=
  seqFilter (predList fs) t

/-- One-pass filtering of the source (single combined mask). -/
def filtered_df_onepass (fs : FilterSet) (t : List NormRow) : List NormRow :=
  t.filter (fsPred fs)

/-- Metric `len(filtered_df)`. -/
def count_products (v : List NormRow) : ℕ :=
  v.length

/-- Metric `filtered_df['nutri_score'].mean()`: pandas mean skips null
values and yields NaN (modelled `none`) when no non-null value exists. -/
def mean_nutri_score (v : List NormRow) : Option ℚ :=
  let vals := v.filterMap (fun r => r.nutri_score)
  if vals.isEmpty then none else some (vals.sum / vals.length)

/-- Metric `filtered_df['is_organic'].mean()`: the organic column is a
non-null boolean column, so the mean is the fraction of organic rows;
pandas yields NaN (modelled `none`) on an empty view. -/
def organic_share (v : List NormRow) : Option ℚ :=
  if v.isEmpty then none
  else some (((v.filter (fun r => r.is_organic)).length : ℚ) / (v.length : ℚ))

/-- The full letter selection of the nutri-grade multiselect. -/
def allGrades : List String :=
  ["a", "b", "c", "d", "e"]

/-- Example row used to witness the country-filter behaviour. -/
def franceRow : NormRow :=
  { main_country := some "France" }

/-- Example filter set: no constraint active anywhere. -/
def exampleFS : FilterSet :=
  { countries := ["France"], organic_only := false, category := none,
    nutri_grades := allGrades, nova_groups := [1, 2, 3, 4],
    sugar_lo := 0, sugar_hi := 100 }

/-- Example table for the filter-commutation witness. -/
def exampleTable : List NormRow :=
  [franceRow, { main_country := some "Spain", is_organic := true }]

/-- Example raw row whose nutriscore_grade cell is missing. -/
def missingGradeRaw : RawRow :=
  { product_name := some "p" }

/-- Arithmetic mean of a list of rationals (division by the length). -/
def qmean (l : List ℚ) : ℚ :=
  l.sum / (l.length : ℚ)

/-- Brand and score of a row when both are present (one cell of the
`dropna(subset=['brands','nutri_score'])` step). -/
def brandScoreCell (r : NormRow) : Option (String × ℚ) :=
  match r.brands, r.nutri_score with
  | some b, some s => some (b, s)
  | _, _ => none

/-- Embeds `dropna(subset=['brands','nutri_score'])` restricted to the
two columns of interest. -/
def dropnaBrandScore (v : List NormRow) : List (String × ℚ) :=
  v.filterMap brandScoreCell

/-- Embeds `groupby('brands')['nutri_score'].mean()`: one (brand, mean)
pair per distinct brand of the non-null pairs; every group is nonempty
by construction, so the plain mean is defined. -/
def groupMeans (l : List (String × ℚ)) : List (String × ℚ) :=
  (l.map Prod.fst).dedup.map
    (fun k => (k, qmean ((l.filter (fun p => p.1 == k)).map Prod.snd)))

/-- Descending order on the numeric component, the order produced by
`nlargest` and by `sort_values(ascending=False)`. -/
def bySndDesc (p q : String × ℚ) : Prop :=
  q.2 ≤ p.2

instance : DecidableRel bySndDesc :=
  fun p q => inferInstanceAs (Decidable (q.2 ≤ p.2))

instance : IsTotal (String × ℚ) bySndDesc :=
  ⟨fun a b => le_total b.2 a.2⟩

instance : IsTrans (String × ℚ) bySndDesc :=
  ⟨fun _ _ _ hab hbc => le_trans hbc hab⟩

/-- Embeds `dropna(subset=['brands','nutri_score']).groupby('brands')
['nutri_score'].mean().nlargest(n)`: group means sorted descending and
truncated. -/
def top_brands (v : List NormRow) (n : ℕ) : List (String × ℚ) :=
  (List.insertionSort bySndDesc (groupMeans (dropnaBrandScore v))).take n

/-- NaN-skipping mean of a nullable column (pandas `mean()`): null when
no non-null value exists. -/
def optMean (l : List (Option ℚ)) : Option ℚ :=
  let vals := l.filterMap id
  if vals.isEmpty then none else some (vals.sum / (vals.length : ℚ))

/-- Brand key with its (possibly null) score; `groupby('brands')` drops
rows with a null key but keeps rows with a null score. -/
def brandCell (r : NormRow) : Option (String × Option ℚ) :=
  r.brands.map (fun b => (b, r.nutri_score))

/-- Rows that carry a brand key, paired with their nullable scores. -/
def brandRows (v : List NormRow) : List (String × Option ℚ) :=
  v.filterMap brandCell

/-- Embeds the unguarded variant
`df.groupby('brands')['nutri_score_num'].mean()`: per-brand NaN-skipping
mean, which is NaN (modelled `none`) for a brand whose scores are all
null. -/
def brand_scores (v : List NormRow) : List (String × Option ℚ) :=
  ((brandRows v).map Prod.fst).dedup.map
    (fun k => (k, optMean (((brandRows v).filter (fun p => p.1 == k)).map Prod.snd)))

/-- Descending-by-value order with NaN placed last, the order of
`sort_values(ascending=False)` (na_position defaults to last). -/
def naLastDesc (p q : String × Option ℚ) : Bool :=
  match p.2, q.2 with
  | some a, some b => decide (b ≤ a)
  | some _, none => true
  | none, none => true
  | none, some _ => false

/-- Embeds `...mean().sort_values(ascending=False).head(n)` of the
streamlit.py variant: NaN means are kept and sorted last, not dropped. -/
def brand_scores_top (v : List NormRow) (n : ℕ) : List (String × Option ℚ) :=
  (List.insertionSort (fun p q => naLastDesc p q = true) (brand_scores v)).take n

/-- Example view whose brand B has only a null score. -/
def brandNullView : List NormRow :=
  [{ brands := some "A", nutri_score := some 5 },
    { brands := some "B", nutri_score := none }]

/-- Example view with a single branded, scored row. -/
def singleBrandView : List NormRow :=
  [{ brands := some "A", nutri_score := some 5 }]

/-- Group keys of `groupby('main_country')`: the distinct non-null
country values (pandas drops null group keys). -/
def groupKeys (v : List NormRow) : List String :=
  (v.filterMap (fun r => r.main_country)).dedup

/-- Rows of one country group. -/
def groupRows (v : List NormRow) (k : String) : List NormRow :=
  v.filter (fun r => r.main_country == some k)

/-- The high-sugar row predicate `sugars_100g >= 15`: false on a null
cell (a NaN comparison is false in pandas). -/
def highSugar (r : NormRow) : Bool :=
  match r.sugars_100g with
  | some s => decide (15 ≤ s)
  | none => false

/-- Embeds `dropna(subset=['sugars_100g'])`. -/
def eligibleRows (v : List NormRow) : List NormRow :=
  v.filter (fun r => r.sugars_100g.isSome)

/-- Embeds the dropna variant
`(high_sugar_df['sugars_100g'] >= 15).groupby(high_sugar_df['main_country']).mean()`:
per-country fraction of high-sugar rows among rows with non-null sugar. -/
def country_pct_core (v : List NormRow) : List (String × ℚ) :=
  (groupKeys (eligibleRows v)).map
    (fun k => (k, (((groupRows (eligibleRows v) k).filter highSugar).length : ℚ) /
      ((groupRows (eligibleRows v) k).length : ℚ)))

/-- The dropna variant continues with `.sort_values(ascending=False).head(8)`. -/
def country_pct (v : List NormRow) : List (String × ℚ) :=
  (List.insertionSort bySndDesc (country_pct_core v)).take 8

/-- Embeds the in-place variant
`(filtered_df['sugars_100g'] >= 15).groupby(filtered_df['main_country']).mean()*100`:
per-country share of high-sugar rows over all rows of the group (its
view has already passed the sugar-range filter), scaled to percent;
stated before the display-time sort, which does not change the pairs. -/
def country_hs (v : List NormRow) : List (String × ℚ) :=
  (groupKeys v).map
    (fun k => (k, (((groupRows v k).filter highSugar).length : ℚ) /
      ((groupRows v k).length : ℚ) * 100))

/-- Example row: France, 20g sugar per 100g. -/
def sugarRow20 : NormRow :=
  { main_country := some "France", sugars_100g := some 20 }

/-- Example row: France, 10g sugar per 100g. -/
def sugarRow10 : NormRow :=
  { main_country := some "France", sugars_100g := some 10 }

/-- Example view: one country, one high-sugar row out of two non-null. -/
def halfSugarView : List NormRow :=
  [sugarRow20, sugarRow10]

/-- Embeds `value_counts()` on a string column: one (value, count) pair
per distinct value of the column (zero-count values never appear). -/
def value_counts (l : List String) : List (String × ℕ) :=
  l.dedup.map (fun g => (g, l.count g))

/-- Embeds `reindex(keys, fill_value=0)`: every requested key appears, a
key absent from the counts gets 0. -/
def reindex_fill (vc : List (String × ℕ)) (keys : List String) : List (String × ℕ) :=
  keys.map (fun k => (k, (vc.lookup k).getD 0))

/-- Embeds `reindex(keys)` without fill_value: every requested key
appears, a key absent from the counts gets NaN (modelled `none`). -/
def reindex_nofill (vc : List (String × ℕ)) (keys : List String) :
    List (String × Option ℕ) :=
  keys.map (fun k => (k, vc.lookup k))

/-- Grade distribution of the fill_value=0 variants:
`value_counts().reindex(['a','b','c','d','e'], fill_value=0)`. -/
def nutri_counts (v : List NormRow) : List (String × ℕ) :=
  reindex_fill (value_counts (v.map (fun r => r.nutriscore_grade))) allGrades

/-- Grade distribution of the bare-reindex variants:
`value_counts().reindex(['a','b','c','d','e'])`. -/
def nutri_counts_nofill (v : List NormRow) : List (String × Option ℕ) :=
  reindex_nofill (value_counts (v.map (fun r => r.nutriscore_grade))) allGrades

/-- Keep exactly the rows where both paired fields are non-null (the
`dropna(subset=[a, b])` step before `corr`). -/
def dropBoth : List (Option ℚ × Option ℚ) → List (ℚ × ℚ)
  | [] => []
  | (some a, some b) :: t => (a, b) :: dropBoth t
  | (some _, none) :: t => dropBoth t
  | (none, _) :: t => dropBoth t

/-- Center both coordinates of every pair at the respective means. -/
def centerPairs (l : List (ℚ × ℚ)) : List (ℚ × ℚ) :=
  let ma := qmean (l.map Prod.fst)
  let mb := qmean (l.map Prod.snd)
  l.map (fun p => (p.1 - ma, p.2 - mb))

/-- Sum of products of the coordinates. -/
def sxy (l : List (ℚ × ℚ)) : ℚ :=
  (l.map (fun p => p.1 * p.2)).sum

/-- Sum of squares of the first coordinates. -/
def sxx (l : List (ℚ × ℚ)) : ℚ :=
  (l.map (fun p => p.1 * p.1)).sum

/-- Sum of squares of the second coordinates. -/
def syy (l : List (ℚ × ℚ)) : ℚ :=
  (l.map (fun p => p.2 * p.2)).sum

/-- Sample covariance (pandas default, denominator n-1). -/
def sampleCov (l : List (ℚ × ℚ)) : ℚ :=
  sxy (centerPairs l) / ((l.length : ℚ) - 1)

/-- Sample variance of the first field (denominator n-1). -/
def sampleVarA (l : List (ℚ × ℚ)) : ℚ :=
  sxx (centerPairs l) / ((l.length : ℚ) - 1)

/-- Sample variance of the second field (denominator n-1). -/
def sampleVarB (l : List (ℚ × ℚ)) : ℚ :=
  syy (centerPairs l) / ((l.length : ℚ) - 1)

/-- Embeds the `corr_df['nutri_score'].corr(corr_df['eco_score'])`
pipeline: pair up the two columns, keep rows where both are non-null,
and produce the exact ingredients (cov, var_a, var_b) of the Pearson
value cov / (sqrt var_a * sqrt var_b); the result is NaN (modelled
`none`) when fewer than 2 paired rows remain or a variance vanishes
(both give 0/0 in pandas). -/
def correlation (l : List (Option ℚ × Option ℚ)) : Option (ℚ × ℚ × ℚ) :=
  if 2 ≤ (dropBoth l).length ∧ sampleVarA (dropBoth l) ≠ 0 ∧
      sampleVarB (dropBoth l) ≠ 0 then
    some (sampleCov (dropBoth l), sampleVarA (dropBoth l), sampleVarB (dropBoth l))
  else none

/-- The (nutri_score, eco_score) column pair of a view. -/
def corrPairs (v : List NormRow) : List (Option ℚ × Option ℚ) :=
  v.map (fun r => (r.nutri_score, r.eco_score))

/-- Example view with perfectly correlated scores
(5,5), (4,4), (3,3), (2,2), (1,1). -/
def perfectCorrRows : List NormRow :=
  [{ nutri_score := some 5, eco_score := some 5 },
    { nutri_score := some 4, eco_score := some 4 },
    { nutri_score := some 3, eco_score := some 3 },
    { nutri_score := some 2, eco_score := some 2 },
    { nutri_score := some 1, eco_score := some 1 }]

/-- C1: the grade-to-score mapping used to derive nutri_score and
eco_score is defined on exactly the five letters a..e with values
5,4,3,2,1; every other string maps to null; the eco map coincides with
the nutri map; and the derived score of the unrecognized raw grades
not-applicable, unknown, a+, f, the empty string and a missing grade is
null (after the loader's stringify-and-lowercase step). -/
theorem c1_score_map_total_on_ae_null_elsewhere :
    (nutri_map "a" = some 5 ∧ nutri_map "b" = some 4 ∧ nutri_map "c" = some 3 ∧
      nutri_map "d" = some 2 ∧ nutri_map "e" = some 1) ∧
    (∀ s : String, s ∉ (["a", "b", "c", "d", "e"] : List String) → nutri_map s = none) ∧
    (∀ s : String, eco_map s = nutri_map s) ∧
    (∀ c ∈ ([some "not-applicable", some "unknown", some "a+", some "f", some "", none] :
        List (Option String)),
      nutri_map (pyLower c) = none ∧ eco_map (pyLower c) = none) := by
  refine ⟨by decide, ?_, ?_, by decide⟩
  · intro s hs
    simp only [List.mem_cons, List.not_mem_nil, or_false] at hs
    push_neg at hs
    obtain ⟨h1, h2, h3, h4, h5⟩ := hs
    simp [nutri_map, h1, h2, h3, h4, h5]
  · intro s
    simp [nutri_map, eco_map]

/-- Witness for C1 at concrete inputs: the unrecognized grade "f" and a
missing grade both derive a null score. -/
theorem c1_score_map_total_on_ae_null_elsewhere_witness :
    nutri_map "f" = none ∧ nutri_map (pyLower none) = none :=
  ⟨c1_score_map_total_on_ae_null_elsewhere.2.1 "f" (by decide),
    (c1_score_map_total_on_ae_null_elsewhere.2.2.2 none (by decide)).1⟩

/-- C2: normalization drops no rows; the table returned by load_data has
exactly as many rows as the raw parsed table, however many cells failed
coercion and became null. -/
theorem c2_load_preserves_row_count :
    ∀ t : List RawRow, (load_data t).length = t.length := by
  intro t
  simp [load_data]

theorem seqFilter_eq_filter_all (ps : List (α → Bool)) (t : List α) :
    seqFilter ps t = t.filter (fun x => ps.all (fun p => p x)) := by
  induction ps generalizing t with
  | nil => simp [seqFilter]
  | cons p ps ih =>
      have hstep : seqFilter (p :: ps) t = seqFilter ps (t.filter p) := rfl
      rw [hstep, ih, List.filter_filter]
      refine List.filter_congr ?_
      intro a _
      simp [List.all_cons, Bool.and_comm]

theorem all_of_perm {α : Type} {ps qs : List (α → Bool)} (h : ps.Perm qs)
    (f : (α → Bool) → Bool) :
    ps.all f = qs.all f := by
  induction h with
  | nil => rfl
  | cons x _ ih => simp [List.all_cons, ih]
  | swap x y l => simp [List.all_cons, Bool.and_left_comm]
  | trans _ _ ih₁ ih₂ => exact ih₁.trans ih₂

theorem filter_length_lt {p : α → Bool} :
    ∀ {l : List α} {x : α}, x ∈ l → p x = false → (l.filter p).length < l.length := by
  intro l
  induction l with
  | nil => intro x hx; cases hx
  | cons a t ih =>
      intro x hx hpx
      rcases List.mem_cons.mp hx with rfl | hxt
      · rw [List.filter_cons, hpx]
        simpa using Nat.lt_succ_of_le (List.length_filter_le p t)
      · rw [List.filter_cons]
        cases hpa : p a with
        | true => simpa using ih hxt hpx
        | false => simpa using Nat.lt_succ_of_lt (ih hxt hpx)

/-- C3 counterexample: on a view with zero rows, organic_share is the
pandas mean of an empty column, which is NaN (modelled `none`), not the
number 0.0 the claim requires. -/
theorem c3_counterexample_organic_share_empty :
    organic_share [] ≠ some 0 ∧ organic_share [] = none := by
  constructor
  · simp [organic_share]
  · rfl

/-- C3 (amended): for a FilteredView with zero rows, count() returns 0
and mean_nutri_score() returns null without raising, but organic_share()
also returns null (pandas NaN), not 0.0. -/
theorem c3_empty_view_metrics :
    count_products [] = 0 ∧ mean_nutri_score [] = none ∧ organic_share [] = none := by
  refine ⟨rfl, rfl, rfl⟩

/-- C4 counterexample: the unconditional variants apply the isin mask
even to an empty selection, so a one-row table filters to the empty
table instead of being kept whole. -/
theorem c4_counterexample_empty_selection_drops_all :
    countries_filter [] [franceRow] ≠ [franceRow] ∧
      countries_filter [] [franceRow] = [] := by
  constructor
  · simp [countries_filter, countryMem, franceRow]
  · rfl

/-- C4 (amended): in the guarded variant (`if country_filter:`) an empty
countries selection imposes no constraint and keeps every row of any
table; in the unconditional variants the empty isin selection keeps no
row at all. -/
theorem c4_empty_country_selection :
    (∀ t : List NormRow, country_filter_guarded [] t = t) ∧
    (∀ t : List NormRow, countries_filter [] t = []) := by
  constructor
  · intro t
    rfl
  · intro t
    rw [countries_filter, List.filter_eq_nil_iff]
    intro r _
    cases h : r.main_country <;> simp [countryMem, h]

/-- C8: the six filter predicates are pure row-level conditions combined
by AND, so applying them sequentially in any order yields exactly the
one-pass combined-mask filtering, for every table and every filter
state. -/
theorem c8_filter_order_irrelevant :
    ∀ (fs : FilterSet) (t : List NormRow) (ps : List (NormRow → Bool)),
      ps.Perm (predList fs) → seqFilter ps t = filtered_df_onepass fs t := by
  intro fs t ps hperm
  rw [seqFilter_eq_filter_all, filtered_df_onepass]
  refine List.filter_congr ?_
  intro r _
  exact all_of_perm hperm (fun p => p r)

/-- Witness for C8: swapping the first two predicates (organic before
country) on a concrete table still equals the one-pass filtering. -/
theorem c8_filter_order_irrelevant_witness :
    seqFilter
      [organicPred exampleFS, countryPred exampleFS, categoryPred exampleFS,
        gradePred exampleFS.nutri_grades, novaPred exampleFS, sugarPred exampleFS]
      exampleTable = filtered_df_onepass exampleFS exampleTable :=
  c8_filter_order_irrelevant exampleFS exampleTable _
    (List.Perm.swap (countryPred exampleFS) (organicPred exampleFS) _)

/-- C10: normalization stringifies and lowercases the grade column, so a
missing grade becomes the literal string "nan", which lies outside the
full selection a..e; hence the nutri-grade filter with all five letters
selected still removes such a row, and is not equivalent to no
constraint. -/
theorem c10_full_grade_selection_still_filters :
    (∀ r : RawRow, r.nutriscore_grade = none → (load_row r).nutriscore_grade = "nan") ∧
    (gradePred allGrades { nutriscore_grade := "nan" } = false) ∧
    (∀ (t : List RawRow) (r : RawRow), r ∈ t → r.nutriscore_grade = none →
      ((load_data t).filter (gradePred allGrades)).length < (load_data t).length) := by
  refine ⟨?_, by decide, ?_⟩
  · intro r h
    simp only [load_row, pyLower, pyStr, h]
    decide
  · intro t r hmem hnone
    have hx : load_row r ∈ load_data t := List.mem_map_of_mem load_row hmem
    have hgrade : (load_row r).nutriscore_grade = "nan" := by
      simp only [load_row, pyLower, pyStr, hnone]
      decide
    have hfail : gradePred allGrades (load_row r) = false := by
      rw [gradePred, hgrade]
      decide
    exact filter_length_lt hx hfail

/-- Witness for C10: a one-row table with a missing grade strictly
shrinks under the full five-letter grade filter. -/
theorem c10_full_grade_selection_still_filters_witness :
    ((load_data [missingGradeRaw]).filter (gradePred allGrades)).length <
      (load_data [missingGradeRaw]).length :=
  c10_full_grade_selection_still_filters.2.2 [missingGradeRaw] missingGradeRaw
    (List.mem_singleton.mpr rfl) rfl

theorem lookup_map_pair {β : Type} (f : String → β) (ks : List String) (k : String) :
    (ks.map (fun g => (g, f g))).lookup k = if k ∈ ks then some (f k) else none := by
  induction ks with
  | nil => simp
  | cons a t ih =>
      by_cases h : k = a
      · subst h
        simp [List.lookup]
      · have hne : (k == a) = false := by
          simp [h]
        simp [List.lookup, hne, ih, List.mem_cons, h]

theorem lookup_value_counts (l : List String) (k : String) :
    (value_counts l).lookup k = if k ∈ l then some (l.count k) else none := by
  rw [value_counts, lookup_map_pair]
  by_cases h : k ∈ l <;> simp [h, List.mem_dedup]

/-- C5 counterexample: the bare-reindex variant on an empty view emits
every letter with a null count, not the count 0 the claim requires. -/
theorem c5_counterexample_nofill_null :
    nutri_counts_nofill [] =
      [("a", none), ("b", none), ("c", none), ("d", none), ("e", none)] ∧
    ("a", (none : Option ℕ)) ∈ nutri_counts_nofill [] := by
  constructor
  · rfl
  · decide

/-- C5 (amended): the fill_value=0 variants return exactly the five keys
a..e in that order, each carrying the exact occurrence count of that
letter (0 when absent); the bare-reindex variants instead carry a null
count for absent letters. -/
theorem c5_grade_distribution_fixed_domain :
    (∀ v : List NormRow, (nutri_counts v).map Prod.fst = allGrades) ∧
    (∀ (v : List NormRow) (g : String) (c : ℕ), (g, c) ∈ nutri_counts v →
      c = (v.map (fun r => r.nutriscore_grade)).count g) ∧
    (∀ (v : List NormRow) (g : String), g ∈ allGrades →
      g ∉ v.map (fun r => r.nutriscore_grade) →
      (nutri_counts v).lookup g = some 0 ∧
        (nutri_counts_nofill v).lookup g = some none) := by
  refine ⟨?_, ?_, ?_⟩
  · intro v
    simp [nutri_counts, reindex_fill, List.map_map, Function.comp_def]
  · intro v g c hmem
    rw [nutri_counts, reindex_fill] at hmem
    obtain ⟨k, hk, heq⟩ := List.mem_map.mp hmem
    injection heq with h1 h2
    subst h1
    subst h2
    rw [lookup_value_counts]
    by_cases h : k ∈ v.map (fun r => r.nutriscore_grade)
    · rw [if_pos h]
      rfl
    · rw [if_neg h, List.count_eq_zero.mpr h]
      rfl
  · intro v g hg habs
    have hlv := lookup_value_counts (v.map (fun r => r.nutriscore_grade)) g
    rw [if_neg habs] at hlv
    constructor
    · rw [nutri_counts, reindex_fill, lookup_map_pair, if_pos hg, hlv]
      rfl
    · rw [nutri_counts_nofill, reindex_nofill, lookup_map_pair, if_pos hg, hlv]

/-- Witness for C5 on the empty view: the letter a is absent, the filled
distribution carries it with count 0 while the bare reindex carries it
as null. -/
theorem c5_grade_distribution_fixed_domain_witness :
    (nutri_counts []).lookup "a" = some 0 ∧
      (nutri_counts_nofill []).lookup "a" = some none :=
  c5_grade_distribution_fixed_domain.2.2 [] "a" (by decide) (by decide)

theorem sxx_nonneg (l : List (ℚ × ℚ)) : 0 ≤ sxx l := by
  refine List.sum_nonneg ?_
  intro x hx
  obtain ⟨p, _, rfl⟩ := List.mem_map.mp hx
  exact mul_self_nonneg _

theorem syy_nonneg (l : List (ℚ × ℚ)) : 0 ≤ syy l := by
  refine List.sum_nonneg ?_
  intro x hx
  obtain ⟨p, _, rfl⟩ := List.mem_map.mp hx
  exact mul_self_nonneg _

theorem lagrange_sum (l : List (ℚ × ℚ)) (a b : ℚ) :
    sxx l * b ^ 2 - 2 * (a * b) * sxy l + a ^ 2 * syy l =
      (l.map (fun p => (p.1 * b - a * p.2) ^ 2)).sum := by
  induction l with
  | nil => simp [sxx, sxy, syy]
  | cons q t ih =>
      simp only [sxx, sxy, syy, List.map_cons, List.sum_cons] at *
      nlinarith [ih]

theorem cauchy_schwarz_list (l : List (ℚ × ℚ)) : sxy l ^ 2 ≤ sxx l * syy l := by
  induction l with
  | nil => simp [sxx, sxy, syy]
  | cons q t ih =>
      have hnn : 0 ≤ sxx t * q.2 ^ 2 - 2 * (q.1 * q.2) * sxy t + q.1 ^ 2 * syy t := by
        rw [lagrange_sum]
        refine List.sum_nonneg ?_
        intro x hx
        obtain ⟨p, _, rfl⟩ := List.mem_map.mp hx
        positivity
      simp only [sxx, sxy, syy, List.map_cons, List.sum_cons] at *
      nlinarith [ih, hnn]

theorem correlation_inv {l : List (Option ℚ × Option ℚ)} {c va vb : ℚ}
    (h : correlation l = some (c, va, vb)) :
    2 ≤ (dropBoth l).length ∧ c = sampleCov (dropBoth l) ∧
      va = sampleVarA (dropBoth l) ∧ vb = sampleVarB (dropBoth l) ∧
      sampleVarA (dropBoth l) ≠ 0 ∧ sampleVarB (dropBoth l) ≠ 0 := by
  by_cases hcond : 2 ≤ (dropBoth l).length ∧ sampleVarA (dropBoth l) ≠ 0 ∧
      sampleVarB (dropBoth l) ≠ 0
  · unfold correlation at h
    rw [if_pos hcond] at h
    obtain ⟨h1, h2, h3⟩ := hcond
    simp only [Option.some.injEq, Prod.mk.injEq] at h
    exact ⟨h1, h.1.symm, h.2.1.symm, h.2.2.symm, h2, h3⟩
  · unfold correlation at h
    rw [if_neg hcond] at h
    cases h

/-- C6: correlation is computed over exactly the rows where both fields
are non-null; it is null when fewer than 2 such rows exist; whenever it
is defined, its components are the sample covariance and variances and
the Pearson value cov / (sqrt var_a * sqrt var_b) lies in [-1, 1]; and
for the rows (5,5), (4,4), (3,3), (2,2), (1,1) the Pearson value is
exactly 1. -/
theorem c6_correlation_pearson_bounds :
    (∀ l : List (Option ℚ × Option ℚ), (dropBoth l).length < 2 → correlation l = none) ∧
    (∀ (l : List (Option ℚ × Option ℚ)) (c va vb : ℚ),
      correlation l = some (c, va, vb) →
      c = sampleCov (dropBoth l) ∧ va = sampleVarA (dropBoth l) ∧
        vb = sampleVarB (dropBoth l) ∧
        -1 ≤ (c : ℝ) / (Real.sqrt (va : ℝ) * Real.sqrt (vb : ℝ)) ∧
        (c : ℝ) / (Real.sqrt (va : ℝ) * Real.sqrt (vb : ℝ)) ≤ 1) ∧
    (∃ c va vb : ℚ, correlation (corrPairs perfectCorrRows) = some (c, va, vb) ∧
      (c : ℝ) / (Real.sqrt (va : ℝ) * Real.sqrt (vb : ℝ)) = 1) := by
  refine ⟨?_, ?_, ?_⟩
  · intro l hlt
    rw [correlation, if_neg]
    rintro ⟨h2, -⟩
    omega
  · intro l c va vb h
    obtain ⟨hlen, hc, hva, hvb, hva0, hvb0⟩ := correlation_inv h
    have hdpos : (0 : ℚ) < ((dropBoth l).length : ℚ) - 1 := by
      have h2 : (2 : ℚ) ≤ ((dropBoth l).length : ℚ) := by exact_mod_cast hlen
      linarith
    have hvanonneg : 0 ≤ va := by
      rw [hva]
      exact div_nonneg (sxx_nonneg _) hdpos.le
    have hvapos : 0 < va := hvanonneg.lt_of_ne (by rw [hva]; exact Ne.symm hva0)
    have hvbnonneg : 0 ≤ vb := by
      rw [hvb]
      exact div_nonneg (syy_nonneg _) hdpos.le
    have hvbpos : 0 < vb := hvbnonneg.lt_of_ne (by rw [hvb]; exact Ne.symm hvb0)
    have hcs : c ^ 2 ≤ va * vb := by
      rw [hc, hva, hvb]
      simp only [sampleCov, sampleVarA, sampleVarB]
      rw [div_pow, div_mul_div_comm, ← pow_two]
      exact (div_le_div_iff_of_pos_right (by positivity)).mpr
        (cauchy_schwarz_list (centerPairs (dropBoth l)))
    have hcsR : ((c : ℝ)) ^ 2 ≤ (va : ℝ) * (vb : ℝ) := by exact_mod_cast hcs
    have hvaR : (0 : ℝ) < (va : ℝ) := by exact_mod_cast hvapos
    have hvbR : (0 : ℝ) < (vb : ℝ) := by exact_mod_cast hvbpos
    have hsqrt : Real.sqrt (va : ℝ) * Real.sqrt (vb : ℝ) =
        Real.sqrt ((va : ℝ) * (vb : ℝ)) := (Real.sqrt_mul hvaR.le _).symm
    have hposR : 0 < Real.sqrt ((va : ℝ) * (vb : ℝ)) :=
      Real.sqrt_pos.mpr (mul_pos hvaR hvbR)
    have habsc : |(c : ℝ)| ≤ Real.sqrt ((va : ℝ) * (vb : ℝ)) := by
      calc |(c : ℝ)| = Real.sqrt ((c : ℝ) ^ 2) := (Real.sqrt_sq_eq_abs _).symm
        _ ≤ _ := Real.sqrt_le_sqrt hcsR
    have habs : |(c : ℝ) / (Real.sqrt (va : ℝ) * Real.sqrt (vb : ℝ))| ≤ 1 := by
      rw [hsqrt, abs_div, abs_of_pos hposR, div_le_one hposR]
      exact habsc
    have hb := abs_le.mp habs
    exact ⟨hc, hva, hvb, hb.1, hb.2⟩
  · refine ⟨5 / 2, 5 / 2, 5 / 2, ?_, ?_⟩
    · have h1 : dropBoth (corrPairs perfectCorrRows) =
          ([(5, 5), (4, 4), (3, 3), (2, 2), (1, 1)] : List (ℚ × ℚ)) := by
        norm_num [corrPairs, perfectCorrRows, dropBoth]
      have h2 : centerPairs ([(5, 5), (4, 4), (3, 3), (2, 2), (1, 1)] : List (ℚ × ℚ)) =
          [(2, 2), (1, 1), (0, 0), (-1, -1), (-2, -2)] := by
        norm_num [centerPairs, qmean]
      have h3 : sampleCov ([(5, 5), (4, 4), (3, 3), (2, 2), (1, 1)] : List (ℚ × ℚ)) =
          5 / 2 := by
        simp only [sampleCov, h2]
        norm_num [sxy]
      have h4 : sampleVarA ([(5, 5), (4, 4), (3, 3), (2, 2), (1, 1)] : List (ℚ × ℚ)) =
          5 / 2 := by
        simp only [sampleVarA, h2]
        norm_num [sxx]
      have h5 : sampleVarB ([(5, 5), (4, 4), (3, 3), (2, 2), (1, 1)] : List (ℚ × ℚ)) =
          5 / 2 := by
        simp only [sampleVarB, h2]
        norm_num [syy]
      have hcond : 2 ≤ ([(5, 5), (4, 4), (3, 3), (2, 2), (1, 1)] : List (ℚ × ℚ)).length ∧
          sampleVarA ([(5, 5), (4, 4), (3, 3), (2, 2), (1, 1)] : List (ℚ × ℚ)) ≠ 0 ∧
          sampleVarB ([(5, 5), (4, 4), (3, 3), (2, 2), (1, 1)] : List (ℚ × ℚ)) ≠ 0 := by
        refine ⟨by norm_num, ?_, ?_⟩
        · rw [h4]
          norm_num
        · rw [h5]
          norm_num
      unfold correlation
      rw [h1, if_pos hcond, h3, h4, h5]
    · have hcast : (((5 : ℚ) / 2 : ℚ) : ℝ) = (5 : ℝ) / 2 := by norm_num
      rw [hcast, Real.mul_self_sqrt (by norm_num : (0 : ℝ) ≤ 5 / 2)]
      norm_num

/-- Witness for C6: a single paired row (so fewer than 2 rows after the
dropna) makes the correlation null. -/
theorem c6_correlation_pearson_bounds_witness :
    correlation [(some 1, none), (none, some 1)] = none :=
  c6_correlation_pearson_bounds.1 [(some 1, none), (none, some 1)] (by decide)

/-- C7 counterexample: in the `sort_values(ascending=False).head(10)`
variant, a brand whose only score is null is still emitted (with a null
mean, sorted last) when fewer than 10 brands have non-null scores. -/
theorem c7_counterexample_null_mean_group_emitted :
    ("B", (none : Option ℚ)) ∈ brand_scores_top brandNullView 10 ∧
      (brandNullView.filter
        (fun r => r.brands == some "B" && r.nutri_score.isSome)).length = 0 := by
  constructor
  · have hrows : brandRows brandNullView = [("A", some 5), ("B", none)] := by
      simp [brandRows, brandCell, brandNullView]
    have hdedup : ((["A", "B"] : List String)).dedup = ["A", "B"] :=
      List.dedup_eq_self.mpr (by decide)
    have hbs : brand_scores brandNullView =
        [("A", optMean [some 5]), ("B", optMean [none])] := by
      rw [brand_scores, hrows]
      simp [hdedup, optMean]
    have hfm : List.filterMap id ([some (5 : ℚ)]) = [(5 : ℚ)] := rfl
    have hA : optMean [some (5 : ℚ)] = some 5 := by
      simp only [optMean, hfm]
      norm_num
    have hB : optMean ([none] : List (Option ℚ)) = none := by
      simp [optMean]
    rw [brand_scores_top, hbs, hA, hB]
    decide
  · decide

/-- C7 (amended): the `nlargest` variant returns at most top_n pairs,
ordered non-increasing by mean, and never includes a brand with zero
non-null contributing rows; the `sort_values().head(10)` variant keeps
null-mean groups and can emit them (see the counterexample). -/
theorem c7_top_brands_sorted_bounded_nonempty :
    ∀ (v : List NormRow) (n : ℕ),
      (top_brands v n).length ≤ n ∧
      List.Sorted bySndDesc (top_brands v n) ∧
      (∀ (g : String) (m : ℚ), (g, m) ∈ top_brands v n →
        0 < (v.filter (fun r => r.brands == some g && r.nutri_score.isSome)).length) := by
  intro v n
  refine ⟨List.length_take_le _ _, ?_, ?_⟩
  · exact List.Pairwise.sublist (List.take_sublist _ _)
      (List.sorted_insertionSort bySndDesc _)
  · intro g m hmem
    have h1 : (g, m) ∈ List.insertionSort bySndDesc (groupMeans (dropnaBrandScore v)) :=
      List.mem_of_mem_take hmem
    have h2 : (g, m) ∈ groupMeans (dropnaBrandScore v) :=
      (List.mem_insertionSort bySndDesc).mp h1
    rw [groupMeans] at h2
    obtain ⟨k, hk, heq⟩ := List.mem_map.mp h2
    injection heq with e1 e2
    subst e1
    obtain ⟨p, hpmem, hpk⟩ := List.mem_map.mp (List.mem_dedup.mp hk)
    obtain ⟨r, hrv, hcell⟩ := List.mem_filterMap.mp hpmem
    cases hb : r.brands with
    | none => simp [brandScoreCell, hb] at hcell
    | some b =>
        cases hs : r.nutri_score with
        | none => simp [brandScoreCell, hb, hs] at hcell
        | some s =>
            simp only [brandScoreCell, hb, hs, Option.some.injEq] at hcell
            have hrfilter : r ∈ v.filter
                (fun r => r.brands == some k && r.nutri_score.isSome) := by
              refine List.mem_filter.mpr ⟨hrv, ?_⟩
              have hbk : b = k := by
                rw [← hpk, ← hcell]
              rw [hb, hs, hbk]
              simp
            exact List.length_pos_of_mem hrfilter

/-- Witness for C7: on a one-row view the single emitted brand has a
positive number of non-null contributing rows. -/
theorem c7_top_brands_sorted_bounded_nonempty_witness :
    0 < (singleBrandView.filter
      (fun r => r.brands == some "A" && r.nutri_score.isSome)).length := by
  refine (c7_top_brands_sorted_bounded_nonempty singleBrandView 10).2.2 "A"
    (qmean [(5 : ℚ)]) ?_
  have hdrop : dropnaBrandScore singleBrandView = [("A", (5 : ℚ))] := by
    simp [dropnaBrandScore, brandScoreCell, singleBrandView]
  rw [top_brands, hdrop]
  simp [groupMeans, List.insertionSort, List.orderedInsert]

/-- C9 counterexample: the dropna variant emits the plain fraction
(here 1/2 for one high-sugar row out of two eligible), not the
100-scaled percentage the claim specifies (which would be 50). -/
theorem c9_counterexample_fraction_not_percentage :
    country_pct halfSugarView = [("France", (1 : ℚ) / 2)] ∧
      ((1 : ℚ) / 2) ≠ 100 * ((1 : ℚ) / 2) := by
  constructor
  · have helig : eligibleRows halfSugarView = halfSugarView := by decide
    have hkeys : groupKeys halfSugarView = ["France"] := by decide
    have hgrp : groupRows halfSugarView "France" = halfSugarView := by decide
    have hcore : country_pct_core halfSugarView = [("France", (1 : ℚ) / 2)] := by
      rw [country_pct_core, helig, hkeys]
      rw [List.map_cons, List.map_nil, hgrp]
      have hnum : halfSugarView.filter highSugar = [sugarRow20] := by decide
      rw [hnum]
      norm_num [halfSugarView]
    rw [country_pct, hcore]
    rfl
  · norm_num

/-- C9 (amended): in the dropna variants each emitted (country, value)
pair is the plain fraction of rows satisfying the predicate among the
rows of that country with non-null sugar (null rows count in neither
numerator nor denominator, countries with zero eligible rows are never
emitted); the in-place variant multiplies the same ratio by 100 and is
only run on views all of whose rows already carry non-null sugar, which
the sugar-range filter of its pipeline guarantees. -/
theorem c9_percentage_by_group_null_policy :
    (∀ (v : List NormRow) (g : String) (x : ℚ), (g, x) ∈ country_pct v →
      x = ((v.filter (fun r => r.main_country == some g && highSugar r)).length : ℚ) /
          ((v.filter (fun r => r.main_country == some g &&
            r.sugars_100g.isSome)).length : ℚ) ∧
      0 < (v.filter (fun r => r.main_country == some g &&
        r.sugars_100g.isSome)).length) ∧
    (∀ v : List NormRow, (∀ r ∈ v, r.sugars_100g.isSome = true) →
      ∀ (g : String) (x : ℚ), (g, x) ∈ country_hs v →
      x = ((v.filter (fun r => r.main_country == some g && highSugar r)).length : ℚ) /
          ((v.filter (fun r => r.main_country == some g &&
            r.sugars_100g.isSome)).length : ℚ) * 100 ∧
      0 < (v.filter (fun r => r.main_country == some g &&
        r.sugars_100g.isSome)).length) ∧
    (∀ (fs : FilterSet) (t : List NormRow), ∀ r ∈ filtered_df fs t,
      r.sugars_100g.isSome = true) := by
  refine ⟨?_, ?_, ?_⟩
  · intro v g x hmem
    rw [country_pct] at hmem
    have h1 : (g, x) ∈ country_pct_core v :=
      (List.mem_insertionSort bySndDesc).mp (List.mem_of_mem_take hmem)
    rw [country_pct_core] at h1
    obtain ⟨k, hk, heq⟩ := List.mem_map.mp h1
    injection heq with e1 e2
    subst e1
    subst e2
    have hnum : (groupRows (eligibleRows v) k).filter highSugar =
        v.filter (fun r => r.main_country == some k && highSugar r) := by
      rw [groupRows, eligibleRows, List.filter_filter, List.filter_filter]
      refine List.filter_congr ?_
      intro r _
      cases hs : r.sugars_100g with
      | none => simp [highSugar, hs]
      | some s => simp [highSugar, hs, Bool.and_comm]
    have hden : groupRows (eligibleRows v) k =
        v.filter (fun r => r.main_country == some k && r.sugars_100g.isSome) := by
      rw [groupRows, eligibleRows, List.filter_filter]
    refine ⟨by rw [hnum, hden], ?_⟩
    rw [groupKeys] at hk
    obtain ⟨r, hre, hrk⟩ := List.mem_filterMap.mp (List.mem_dedup.mp hk)
    obtain ⟨hrv, hrs⟩ := List.mem_filter.mp hre
    have : r ∈ v.filter
        (fun r => r.main_country == some k && r.sugars_100g.isSome) := by
      refine List.mem_filter.mpr ⟨hrv, ?_⟩
      rw [hrk]
      simp [hrs]
    exact List.length_pos_of_mem this
  · intro v hall g x hmem
    rw [country_hs] at hmem
    obtain ⟨k, hk, heq⟩ := List.mem_map.mp hmem
    injection heq with e1 e2
    subst e1
    subst e2
    have hnum : (groupRows v k).filter highSugar =
        v.filter (fun r => r.main_country == some k && highSugar r) := by
      rw [groupRows, List.filter_filter]
      refine List.filter_congr ?_
      intro r _
      rw [Bool.and_comm]
    have hden : groupRows v k =
        v.filter (fun r => r.main_country == some k && r.sugars_100g.isSome) := by
      rw [groupRows]
      refine List.filter_congr ?_
      intro r hr
      rw [hall r hr]
      simp
    refine ⟨by rw [hnum, hden], ?_⟩
    rw [groupKeys] at hk
    obtain ⟨r, hrv, hrk⟩ := List.mem_filterMap.mp (List.mem_dedup.mp hk)
    have : r ∈ v.filter
        (fun r => r.main_country == some k && r.sugars_100g.isSome) := by
      refine List.mem_filter.mpr ⟨hrv, ?_⟩
      rw [hrk, hall r hrv]
      simp
    exact List.length_pos_of_mem this
  · intro fs t r hr
    rw [filtered_df, seqFilter_eq_filter_all] at hr
    have hall := (List.mem_filter.mp hr).2
    simp only [predList, List.all_cons, List.all_nil, Bool.and_eq_true] at hall
    have hsugar : sugarPred fs r = true := hall.2.2.2.2.2.1
    cases hs : r.sugars_100g with
    | none =>
        rw [sugarPred, hs] at hsugar
        simp at hsugar
    | some s => rfl

/-- Witness for C9: the France group of the example view is emitted and
has two eligible rows. -/
theorem c9_percentage_by_group_null_policy_witness :
    0 < (halfSugarView.filter
      (fun r => r.main_country == some "France" && r.sugars_100g.isSome)).length := by
  refine (c9_percentage_by_group_null_policy.1 halfSugarView "France"
    ((1 : ℚ) / 2) ?_).2
  have helig : eligibleRows halfSugarView = halfSugarView := by decide
  have hkeys : groupKeys halfSugarView = ["France"] := by decide
  have hgrp : groupRows halfSugarView "France" = halfSugarView := by decide
  have hcore : country_pct_core halfSugarView = [("France", (1 : ℚ) / 2)] := by
    rw [country_pct_core, helig, hkeys]
    rw [List.map_cons, List.map_nil, hgrp]
    have hnum : halfSugarView.filter highSugar = [sugarRow20] := by decide
    rw [hnum]
    norm_num [halfSugarView]
  have hts : List.take 8 (List.insertionSort bySndDesc [("France", (1 : ℚ) / 2)]) =
      [("France", (1 : ℚ) / 2)] := rfl
  rw [country_pct, hcore, hts]
  exact List.mem_singleton.mpr rfl

end FoodDash
